import Mathlib

/-!
Shallow embedding of the spellbook repository's entity/usage indexing core
(src/spellbook/index.py, src/spellbook/schema.py and
src/spellbook/assets/scripts/rebuild_index.py), together with theorems
checking the specification's claims about it.

Modelling conventions:
* SQLite `DATETIME` values (ISO-8601 text, compared lexicographically, which
  agrees with chronological order) are modelled as `Nat`.
* Token counters (Python `int`) are modelled as `Int`.
* A SQLite table is modelled as a `List` of row structures in insertion
  order; `INSERT ... ON CONFLICT` / `INSERT OR IGNORE` are modelled by
  explicit key searches over that list.
* YAML values produced by `yaml.safe_load` are modelled by the inductive
  type `Yaml`; the constructor `Yaml.time` stands for a scalar that
  pydantic can coerce to a `datetime`, while `Yaml.str` stands for any
  other string scalar.
-/

/-- Document types, from `DocType` in schema.py. -/
inductive DocType where
  | decision
  | insight
  | code
  | reference
  | conversation
  | analysis
deriving DecidableEq, Repr

/-- Entity types, from `EntityType` in schema.py. -/
inductive EntityType where
  | project
  | person
  | tool
  | repo
  | concept
  | org
deriving DecidableEq, Repr

/-- The enum constructor `DocType(s)`: `some` on a recognized value string,
`none` models the `ValueError` raised on anything else. -/
def docTypeOf : String → Option DocType
  | "decision" => some .decision
  | "insight" => some .insight
  | "code" => some .code
  | "reference" => some .reference
  | "conversation" => some .conversation
  | "analysis" => some .analysis
  | _ => none

/-- The enum constructor `EntityType(s)`: `some` on a recognized value
string, `none` models the `ValueError` raised on anything else. -/
def entityTypeOf : String → Option EntityType
  | "project" => some .project
  | "person" => some .person
  | "tool" => some .tool
  | "repo" => some .repo
  | "concept" => some .concept
  | "org" => some .org
  | _ => none

/-- The `.value` string of an `EntityType` member. -/
def EntityType.value : EntityType → String
  | .project => "project"
  | .person => "person"
  | .tool => "tool"
  | .repo => "repo"
  | .concept => "concept"
  | .org => "org"

/-- YAML values as returned by `yaml.safe_load` on a frontmatter block.
`time t` models a scalar that pydantic parses as a datetime; mappings are
modelled with string keys, which covers every key the source looks up. -/
inductive Yaml where
  | null : Yaml
  | str : String → Yaml
  | time : Nat → Yaml
  | list : List Yaml → Yaml
  | map : List (String × Yaml) → Yaml
deriving Repr

mutual

/-- Structural equality of YAML values (SQLite value equality for the
standalone script's column values). -/
def Yaml.beq : Yaml → Yaml → Bool
  | .null, .null => true
  | .str a, .str b => a == b
  | .time a, .time b => a == b
  | .list a, .list b => Yaml.beqList a b
  | .map a, .map b => Yaml.beqMap a b
  | _, _ => false

def Yaml.beqList : List Yaml → List Yaml → Bool
  | [], [] => true
  | x :: xs, y :: ys => Yaml.beq x y && Yaml.beqList xs ys
  | _, _ => false

def Yaml.beqMap : List (String × Yaml) → List (String × Yaml) → Bool
  | [], [] => true
  | (k1, v1) :: xs, (k2, v2) :: ys => k1 == k2 && Yaml.beq v1 v2 && Yaml.beqMap xs ys
  | _, _ => false

end

instance : BEq Yaml := ⟨Yaml.beq⟩

/-- Python `d[k]` / `k in d` on a parsed mapping: first binding wins
(parsed YAML mappings have unique keys). -/
def yLookup (m : List (String × Yaml)) (k : String) : Option Yaml :=
  (m.find? (fun p => p.1 == k)).map (·.2)

/-- Python `d.get(k, default)`. -/
def yGetD (m : List (String × Yaml)) (k : String) (d : Yaml) : Yaml :=
  (yLookup m k).getD d

/-- Python `d.get(k)` (default `None`). -/
def yGet (m : List (String × Yaml)) (k : String) : Yaml :=
  yGetD m k .null

/-- Python truthiness of a YAML value. -/
def yTruthy : Yaml → Bool
  | .null => false
  | .str s => !(s == "")
  | .time _ => true
  | .list l => !l.isEmpty
  | .map m => !m.isEmpty

/-- Python `for x in v` iteration: a list yields its elements, a mapping
yields its keys. Other values raise `TypeError` in the source (uncaught);
they are outside the modelled input domain and yield nothing here. -/
def yIter : Yaml → List Yaml
  | .list l => l
  | .map m => m.map (fun p => .str p.1)
  | _ => []

/-- Pydantic validation of a `str` field: only string scalars pass. -/
def yamlToStr : Yaml → Option String
  | .str s => some s
  | _ => none

/-- Pydantic validation of a `datetime` field: only datetime-parsable
scalars (modelled by `Yaml.time`) pass. -/
def yamlToTime : Yaml → Option Nat
  | .time t => some t
  | _ => none

/-- Pydantic validation of a `list[str]` field. -/
def yamlToStrList : Yaml → Option (List String)
  | .list l => l.mapM yamlToStr
  | _ => none

/-- Pydantic validation of an `Optional[str]` field. -/
def yamlToOptStr : Yaml → Option (Option String)
  | .null => some none
  | .str s => some (some s)
  | _ => none

/-- The composite `DocType(value)` conversion applied to a YAML scalar. -/
def yamlToDocType (v : Yaml) : Option DocType :=
  match v with
  | .str s => docTypeOf s
  | _ => none

/-- Python `"SAM".lower()` and friends, modelled at the character level so
that concrete instances evaluate inside the kernel. -/
def toLowerStr (s : String) : String := String.mk (s.data.map Char.toLower)

/-- SQLite `COLLATE NOCASE` comparison (case-insensitive equality). -/
def nocaseEq (a b : String) : Bool := toLowerStr a == toLowerStr b

/-- Python `str.strip()` on a character list. -/
def trimChars (l : List Char) : List Char :=
  ((l.dropWhile Char.isWhitespace).reverse.dropWhile Char.isWhitespace).reverse

/-- Python `str.strip()`. -/
def trimStr (s : String) : String := String.mk (trimChars s.data)

def splitLinesAux (l : List Char) (cur : List Char) : List (List Char) :=
  match l with
  | [] => [cur.reverse]
  | c :: rest =>
    if c = '\n' then cur.reverse :: splitLinesAux rest []
    else splitLinesAux rest (c :: cur)

/-- Python `text.split("\n")`. -/
def splitLines (s : String) : List String := (splitLinesAux s.data []).map String.mk

/-- Python `line.startswith("# ")` for the title-heading scan. -/
def isHeadingLine (s : String) : Bool :=
  match s.data with
  | '#' :: ' ' :: _ => true
  | _ => false

/-- Python `line[2:].strip()` for the title-heading scan. -/
def headingText (s : String) : String := String.mk (trimChars (s.data.drop 2))

/-- Entity reference embedded in a document (`EntityRef` in schema.py). -/
structure EntityRef where
  name : String
  type : EntityType
deriving DecidableEq, Repr

/-- Reference to another document (`RelatedDoc` in schema.py). -/
structure RelatedDoc where
  id : String
  relationship : String
deriving DecidableEq, Repr

/-- A knowledge document (`ArchiveDoc` in schema.py). -/
structure ArchiveDoc where
  id : String
  ts : Nat
  type : DocType
  title : String
  summary : String
  content : String
  entities : List EntityRef
  related_docs : List RelatedDoc
  tags : List String
  source_session : Option String
  source_files : List String
deriving DecidableEq, Repr

/-- Session-level usage summary (`SessionUsage` in schema.py). -/
structure SessionUsage where
  id : String
  vault_path : String
  started_at : Nat
  ended_at : Option Nat
  total_input_tokens : Int
  total_output_tokens : Int
  total_cache_creation : Int
  total_cache_read : Int
  total_messages : Int
  slug : Option String
deriving DecidableEq, Repr

/-- Usage record for one subagent invocation (`SubagentCall` in schema.py);
also serves as a `subagent_calls` table row, whose 15 inserted columns
carry exactly these fields (the autoincrement surrogate `id` column, which
no claim mentions, is omitted). -/
structure SubagentCall where
  session_id : String
  agent_id : String
  agent_type : String
  description : Option String
  prompt_preview : Option String
  started_at : Nat
  ended_at : Option Nat
  duration_ms : Option Int
  input_tokens : Int
  output_tokens : Int
  cache_creation : Int
  cache_read : Int
  total_tokens : Int
  tool_use_count : Int
  status : String
deriving DecidableEq, Repr

/-- Row of the `entities` table. -/
structure EntityRow where
  name : String
  type : String
  created : Nat
  last_mentioned : Nat
deriving DecidableEq, Repr

/-- Row of the `refs` table. -/
structure RefRow where
  entity : String
  doc_id : String
  ts : Nat
deriving DecidableEq, Repr

/-- Row of the `entity_aliases` table. The source column is named `alias`,
which is reserved in Lean, hence the guillemets. -/
structure AliasRow where
  «alias» : String
  canonical : String
  entity_type : String
deriving DecidableEq, Repr

/-- Row of the `sessions` table. -/
structure SessionRow where
  id : String
  vault_path : String
  started_at : Nat
  ended_at : Option Nat
  total_input_tokens : Int
  total_output_tokens : Int
  total_cache_creation : Int
  total_cache_read : Int
  total_messages : Int
  slug : Option String
deriving DecidableEq, Repr

/-- The vault's index.db database state. -/
structure Store where
  entities : List EntityRow
  refs : List RefRow
  aliases : List AliasRow
  sessions : List SessionRow
  subagent_calls : List SubagentCall
deriving DecidableEq, Repr

/-- Raw text of a document file, abstracted at the YAML boundary:
`noMarker` is text not starting with `---` (index.py line 197);
`unterminated` is text with fewer than 3 parts after `split("---", 2)`
(lines 200-202); `badYaml` is a frontmatter on which `yaml.safe_load`
raises `YAMLError` (lines 204-207); `framed fm body` is a frontmatter
loaded as the mapping `fm` (an empty mapping also models a falsy load
result, line 209) followed by the body text after the closing marker. -/
inductive RawDoc where
  | noMarker : RawDoc
  | unterminated : RawDoc
  | badYaml : RawDoc
  | framed : List (String × Yaml) → String → RawDoc

/-- Entity extraction from the frontmatter `entities` value (index.py
lines 212-234). Format A is a type-keyed mapping of name lists; Format B
is a list of `{name, type}` mappings. Unknown entity types raise
`ValueError` and non-string names raise pydantic's `ValidationError`
(a `ValueError` subclass); both are caught and the entity skipped. -/
def parseEntities (raw : Yaml) : List EntityRef :=
  match raw with
  | .map items =>
    items.foldl (fun acc p =>
      match p.2 with
      | .list names =>
        acc ++ names.filterMap (fun nv =>
          match nv, entityTypeOf p.1 with
          | .str n, some t => some ⟨n, t⟩
          | _, _ => none)
      | _ => acc) []
  | .list es =>
    es.filterMap (fun e =>
      match e with
      | .map flds =>
        match yLookup flds "name", yLookup flds "type" with
        | some (.str n), some (.str ts) => (entityTypeOf ts).map (fun t => ⟨n, t⟩)
        | some _, some _ => none
        | _, _ => none
      | _ => none)
  | _ => []

/-- Candidate related-document pairs (index.py lines 237-240): elements of
the `related_docs` value that are mappings containing an `id` key, paired
with their `relationship` value (default `"related"`). -/
def relatedCandidates (v : Yaml) : List (Yaml × Yaml) :=
  (yIter v).filterMap (fun r =>
    match r with
    | .map flds =>
      (yLookup flds "id").map (fun i => (i, yGetD flds "relationship" (.str "related")))
    | _ => none)

/-- Pydantic validation of the collected related-document dicts: every
`id` and `relationship` must be a string, else the whole document fails. -/
def relatedOf (v : Yaml) : Option (List RelatedDoc) :=
  (relatedCandidates v).mapM (fun p =>
    match yamlToStr p.1, yamlToStr p.2 with
    | some i, some rel => some (⟨i, rel⟩ : RelatedDoc)
    | _, _ => none)

/-- Title fallback (index.py lines 248-256): explicit `title` if truthy,
else the first `# ` heading of the stripped body (stripped), else
`Untitled`. -/
def findHeading (body : String) : String :=
  match (splitLines (trimStr body)).find? isHeadingLine with
  | some l => if headingText l == "" then "Untitled" else headingText l
  | none => "Untitled"

/-- The `parse_document` function of index.py (lines 193-274). Returns
`none` on any rejection: no leading frontmatter marker, unterminated or
unparsable frontmatter, falsy frontmatter, missing timestamp (under both
`ts` and `date`), or a pydantic validation failure while constructing the
`ArchiveDoc` (caught by the bare `except Exception`). -/
def parse_document (raw : RawDoc) (stem : String) : Option ArchiveDoc :=
  match raw with
  | .noMarker => none
  | .unterminated => none
  | .badYaml => none
  | .framed fm body =>
    if yTruthy (.map fm) then
      if yTruthy (if yTruthy (yGet fm "ts") then yGet fm "ts" else yGet fm "date") then
        match yamlToStr (yGetD fm "id" (.str stem)),
              yamlToTime (if yTruthy (yGet fm "ts") then yGet fm "ts" else yGet fm "date"),
              yamlToDocType (yGetD fm "type" (.str "reference")),
              (if yTruthy (yGet fm "title") then yamlToStr (yGet fm "title")
               else some (findHeading body)),
              yamlToStr (yGetD fm "summary" (.str "")),
              relatedOf (yGetD fm "related_docs" (.list [])),
              yamlToStrList (yGetD fm "tags" (.list [])),
              yamlToOptStr (yGet fm "source_session"),
              yamlToStrList (yGetD fm "source_files" (.list [])) with
        | some i, some ts, some dty, some ttl, some summ, some rel, some tags, some ss, some sf =>
          some { id := i, ts := ts, type := dty, title := ttl, summary := summ,
                 content := trimStr body,
                 entities := parseEntities (yGetD fm "entities" (.list [])),
                 related_docs := rel, tags := tags, source_session := ss,
                 source_files := sf }
        | _, _, _, _, _, _, _, _, _ => none
      else none
    else none

/-- The `INSERT INTO entities ... ON CONFLICT(name) DO UPDATE SET
last_mentioned = excluded.last_mentioned` statement (index.py lines
105-113): on conflict only `last_mentioned` is overwritten with the new
timestamp; `type` and `created` keep their stored values. -/
def upsertEntity (rows : List EntityRow) (name ty : String) (ts : Nat) : List EntityRow :=
  if rows.any (fun r => r.name == name) then
    rows.map (fun r => if r.name == name then { r with last_mentioned := ts } else r)
  else
    rows ++ [⟨name, ty, ts, ts⟩]

/-- The `INSERT OR IGNORE INTO refs` statement (index.py lines 115-121),
keyed by the primary key `(entity, doc_id)`. -/
def insertRefIgnore (rows : List RefRow) (entity doc_id : String) (ts : Nat) : List RefRow :=
  if rows.any (fun r => r.entity == entity && r.doc_id == doc_id) then rows
  else rows ++ [⟨entity, doc_id, ts⟩]

/-- The `add_document` function of index.py (lines 102-123): for every
entity reference of the document, upsert the entity and insert-or-ignore
the reference row. -/
def add_document (st : Store) (doc : ArchiveDoc) : Store :=
  doc.entities.foldl (fun s er =>
    { s with entities := upsertEntity s.entities er.name er.type.value doc.ts,
             refs := insertRefIgnore s.refs er.name doc.id doc.ts }) st

/-- The `add_entity_alias` function of index.py (lines 288-317): a plain
`INSERT` into `entity_aliases`, whose case-insensitive primary key on
`alias` raises `IntegrityError` on a (case-insensitive) duplicate; the
source catches it and returns `False` with the table unchanged. Totality
of this function models that no exception escapes to the caller. -/
def add_entity_alias (table : List AliasRow) (a canonical entity_type : String) :
    Bool × List AliasRow :=
  if table.any (fun r => nocaseEq r.«alias» a) then
    (false, table)
  else
    (true, table ++ [⟨a, canonical, entity_type⟩])

/-- The `get_canonical_name` function of index.py (lines 320-334):
`SELECT canonical FROM entity_aliases WHERE alias = ? COLLATE NOCASE`,
first row if any, else the name itself. -/
def get_canonical_name (table : List AliasRow) (name : String) : String :=
  match table.find? (fun r => nocaseEq r.«alias» name) with
  | some r => r.canonical
  | none => name

/-- The `upsert_session` function of index.py (lines 551-583):
`INSERT ... ON CONFLICT(id) DO UPDATE` which overwrites `ended_at`, the
four token counters, `total_messages` and `slug` with the new values;
`vault_path` and `started_at` are not listed in the UPDATE clause and keep
their stored values on conflict. `sessionUpdate` is that UPDATE clause,
applied to the conflicting row. -/
def sessionUpdate (s : SessionUsage) (r : SessionRow) : SessionRow :=
  if r.id == s.id then
    { r with ended_at := s.ended_at,
             total_input_tokens := s.total_input_tokens,
             total_output_tokens := s.total_output_tokens,
             total_cache_creation := s.total_cache_creation,
             total_cache_read := s.total_cache_read,
             total_messages := s.total_messages,
             slug := s.slug }
  else r

def upsert_session (rows : List SessionRow) (s : SessionUsage) : List SessionRow :=
  if rows.any (fun r => r.id == s.id) then
    rows.map (sessionUpdate s)
  else
    rows ++ [⟨s.id, s.vault_path, s.started_at, s.ended_at, s.total_input_tokens,
              s.total_output_tokens, s.total_cache_creation, s.total_cache_read,
              s.total_messages, s.slug⟩]

/-- The `insert_subagent_call` function of index.py (lines 586-615): a
plain append of the call's 15 columns. -/
def insert_subagent_call (rows : List SubagentCall) (call : SubagentCall) : List SubagentCall :=
  rows ++ [call]

/-- Modelled from the spec: the transcript-processing hook that records a
session's subagent calls is not under src/ (only the store operations it
calls are). Per the spec ("the Persistent Store replaces
(delete-then-insert) all subagent rows for that session before inserting
the freshly computed set"), it deletes every `subagent_calls` row of the
session and then inserts the freshly computed set via
`insert_subagent_call`. -/
def record_subagent_calls (rows : List SubagentCall) (sid : String)
    (calls : List SubagentCall) : List SubagentCall :=
  let kept := rows.filter (fun r => !(r.session_id == sid))
  calls.foldl insert_subagent_call kept

/-- A markdown file under `log/` as seen by the rebuild drivers: its path,
its stem (file name without extension) and its raw content. -/
structure DocFile where
  path : String
  stem : String
  raw : RawDoc

/-- One iteration of the document loop of `rebuild_index` (index.py lines
504-513), threading `(store, doc_count, errors)`. -/
def rebuildStep (acc : Store × Nat × Nat) (f : DocFile) : Store × Nat × Nat :=
  match parse_document f.raw f.stem with
  | some d => (add_document acc.1 d, acc.2.1 + 1, acc.2.2)
  | none => (acc.1, acc.2.1, acc.2.2 + 1)

/-- The `rebuild_index` function of index.py (lines 481-528): drop the
`refs`, `entity_aliases` and `entities` tables (the `sessions` and
`subagent_calls` tables are not dropped), recreate the entity schema, and
process every document file in sorted path order. `docs` is the sorted
file list produced by `sorted(log_path.glob("**/*.md"))`. Returns the
final store together with the reported document and error counts. -/
def rebuild_index (st : Store) (docs : List DocFile) : Store × Nat × Nat :=
  docs.foldl rebuildStep ({ st with entities := [], refs := [], aliases := [] }, 0, 0)

/-- Classification of one document by `rebuild_index`'s report (index.py
lines 505-513): a parsed document is reported with a check mark, every
rejected document with the single generic label `(parse error)`. -/
inductive IndexReport where
  | ok : IndexReport
  | parseError : IndexReport
deriving DecidableEq, Repr

/-- Report entry `rebuild_index` emits for one document file. -/
def rebuild_index_report (raw : RawDoc) (stem : String) : IndexReport :=
  match parse_document raw stem with
  | some _ => .ok
  | none => .parseError

/-- The `parse_frontmatter` function of the standalone rebuild script
(rebuild_index.py lines 33-43): `some fm` when the text starts with `---`,
splits into at least 3 parts and the frontmatter loads; `none` otherwise.
As in `RawDoc`, a falsy load result is modelled by an empty mapping. -/
def parse_frontmatter (raw : RawDoc) : Option (List (String × Yaml)) :=
  match raw with
  | .noMarker => none
  | .unterminated => none
  | .badYaml => none
  | .framed fm _ => some fm

/-- Row of the standalone script's `entities` table. The script runs no
pydantic validation, so its columns hold raw YAML scalars. -/
structure SEntityRow where
  name : Yaml
  type : Yaml
  created : Yaml
  last_mentioned : Yaml
deriving Repr

/-- Row of the standalone script's `refs` table. -/
structure SRefRow where
  entity : Yaml
  doc_id : Yaml
  ts : Yaml
deriving Repr

/-- Database state produced by the standalone script. Its schema
(rebuild_index.py lines 10-30) creates only `entities` and `refs`; the
`sessions` and `subagent_calls` tables are absent, which is modelled as
those tables holding no rows. -/
structure ScriptStore where
  entities : List SEntityRow
  refs : List SRefRow
  sessions : List SessionRow
  subagent_calls : List SubagentCall
deriving Repr

/-- The script's entity upsert (rebuild_index.py lines 89-97), identical
in shape to index.py's but over raw YAML values. -/
def scriptUpsertEntity (rows : List SEntityRow) (name etype ts : Yaml) : List SEntityRow :=
  if rows.any (fun r => r.name == name) then
    rows.map (fun r => if r.name == name then { r with last_mentioned := ts } else r)
  else
    rows ++ [⟨name, etype, ts, ts⟩]

/-- The script's `INSERT OR IGNORE INTO refs` (rebuild_index.py lines
99-105). -/
def scriptInsertRef (rows : List SRefRow) (name docId ts : Yaml) : List SRefRow :=
  if rows.any (fun r => r.entity == name && r.doc_id == docId) then rows
  else rows ++ [⟨name, docId, ts⟩]

/-- The body of the script's per-entity loop (rebuild_index.py lines
81-107), threading `(store, entity_count)`: non-mapping elements are
skipped, as are entries whose `name` or `type` is falsy. -/
def scriptEntityStep (docId ts : Yaml) (acc : ScriptStore × Nat) (e : Yaml) :
    ScriptStore × Nat :=
  match e with
  | .map flds =>
    if yTruthy (yGet flds "name") && yTruthy (yGet flds "type") then
      ({ acc.1 with
          entities := scriptUpsertEntity acc.1.entities (yGet flds "name")
            (yGet flds "type") ts,
          refs := scriptInsertRef acc.1.refs (yGet flds "name") docId ts },
       acc.2 + 1)
    else acc
  | _ => acc

/-- Classification of one document by the standalone script's report
(rebuild_index.py lines 64-77): a missing or falsy frontmatter prints
`(no frontmatter)`, a falsy `ts` value prints `(no timestamp)`, and
otherwise the document is indexed. -/
inductive ScriptReport where
  | noFrontmatter : ScriptReport
  | noTimestamp : ScriptReport
  | indexed : ScriptReport
deriving DecidableEq, Repr

/-- Report entry the standalone script emits for one document file. Note
the script consults only the `ts` field, never `date`. -/
def script_report (raw : RawDoc) : ScriptReport :=
  match parse_frontmatter raw with
  | none => .noFrontmatter
  | some fm =>
    if yTruthy (.map fm) then
      if yTruthy (yGet fm "ts") then .indexed else .noTimestamp
    else .noFrontmatter

/-- One iteration of the script's document loop (rebuild_index.py lines
64-110), threading `(store, doc_count, entity_count)`. Rejected documents
are printed and skipped without touching the accumulator. -/
def scriptDocStep (acc : ScriptStore × Nat × Nat) (f : DocFile) : ScriptStore × Nat × Nat :=
  match parse_frontmatter f.raw with
  | none => acc
  | some fm =>
    if yTruthy (.map fm) then
      if yTruthy (yGet fm "ts") then
        (((yIter (yGetD fm "entities" (.list []))).foldl
            (scriptEntityStep (yGetD fm "id" (.str f.stem)) (yGet fm "ts"))
            (acc.1, acc.2.2)).1,
         acc.2.1 + 1,
         ((yIter (yGetD fm "entities" (.list []))).foldl
            (scriptEntityStep (yGetD fm "id" (.str f.stem)) (yGet fm "ts"))
            (acc.1, acc.2.2)).2)
      else acc
    else acc

/-- The `rebuild` function of the standalone script (rebuild_index.py
lines 46-119). Line 56 (`db_path.unlink(missing_ok=True)`) removes the
whole database file, so the run starts from an empty database whatever
the prior store `st` contained; the recreated schema has no telemetry
tables. Returns the final database with the reported document and
entity counts. -/
def script_rebuild (st : Store) (docs : List DocFile) : ScriptStore × Nat × Nat :=
  docs.foldl scriptDocStep (⟨[], [], [], []⟩, 0, 0)

/-- One entry of an assistant-runtime transcript, as the spec's Delta
Extractor sees it: an optional timestamp, a role and the entry's
extracted text. -/
structure TranscriptEntry where
  timestamp : Option Nat
  role : String
  text : String
deriving DecidableEq, Repr

/-- Modelled from the spec: the Delta Extractor is not under src/. Spec
section 4.2: "skip entries without a timestamp; skip entries with
`timestamp <= checkpoint` (strict greater-than)". These are the entries
surviving the checkpoint filter. -/
def deltaEntries (entries : List TranscriptEntry) (checkpoint : Option Nat) :
    List TranscriptEntry :=
  entries.filter (fun e =>
    match e.timestamp with
    | none => false
    | some t =>
      match checkpoint with
      | none => true
      | some c => c < t)

/-- Modelled from the spec: "keep only `user`/`assistant` entries whose
extracted text is non-empty" — the qualifying entries that make up the
extractor's output. -/
def qualifyingEntries (entries : List TranscriptEntry) (checkpoint : Option Nat) :
    List TranscriptEntry :=
  (deltaEntries entries checkpoint).filter
    (fun e => (e.role == "user" || e.role == "assistant") && !(e.text == ""))

/-- Modelled from the spec: "track the maximum timestamp seen as the new
checkpoint candidate", over the entries surviving the checkpoint filter. -/
def newCheckpoint (entries : List TranscriptEntry) (checkpoint : Option Nat) : Option Nat :=
  (deltaEntries entries checkpoint).foldl
    (fun acc e =>
      match e.timestamp, acc with
      | some t, none => some t
      | some t, some m => some (max m t)
      | none, a => a)
    none

/-- Modelled from the spec: format each qualifying entry as
`"<ROLE>: <text>"` and join with a blank-line separator (scenario: roles
are rendered `USER` / `AGENT`). -/
def flattenedText (entries : List TranscriptEntry) (checkpoint : Option Nat) : String :=
  String.intercalate "\n\n"
    ((qualifyingEntries entries checkpoint).map
      (fun e => (if e.role == "user" then "USER" else "AGENT") ++ ": " ++ e.text))

/-- Modelled from the spec: the Delta Extractor's output
`(flattened_text, new_checkpoint_timestamp, new_entry_count)`. -/
def extract_delta (entries : List TranscriptEntry) (checkpoint : Option Nat) :
    String × Option Nat × Nat :=
  (flattenedText entries checkpoint, newCheckpoint entries checkpoint,
   (qualifyingEntries entries checkpoint).length)

/-- Modelled from the spec: "if fewer than 2 qualifying entries were
found, the caller must discard the output and must NOT advance the
checkpoint". The checkpoint stored after a capture run: advanced to the
new high-water mark on success, left at the prior value otherwise. -/
def checkpointAfter (entries : List TranscriptEntry) (checkpoint : Option Nat) : Option Nat :=
  if 2 ≤ (qualifyingEntries entries checkpoint).length then
    newCheckpoint entries checkpoint
  else checkpoint

/-- The entity lookup of `get_entity` (index.py lines 152-164):
`SELECT ... FROM entities WHERE name = ?`, first row if any. -/
def get_entity (st : Store) (name : String) : Option EntityRow :=
  st.entities.find? (fun r => r.name == name)

theorem nocaseEq_iff (a b : String) : nocaseEq a b = true ↔ toLowerStr a = toLowerStr b := by
  simp [nocaseEq]

/-- C7: `add_entity_alias` reports a duplicate alias as a boolean
conflict: it returns `false` exactly when a case-insensitively equal alias
is already in the table, leaving the table unchanged, and returns `true`
and appends the mapping otherwise; being a total function, it raises
nothing to the caller in either case. -/
theorem add_alias_conflict_boolean (table : List AliasRow) (a canonical entity_type : String) :
    ((add_entity_alias table a canonical entity_type).1 = false ↔
      ∃ r ∈ table, nocaseEq r.«alias» a = true)
    ∧ ((add_entity_alias table a canonical entity_type).1 = false →
        (add_entity_alias table a canonical entity_type).2 = table)
    ∧ ((add_entity_alias table a canonical entity_type).1 = true →
        (add_entity_alias table a canonical entity_type).2 = table ++ [⟨a, canonical, entity_type⟩]) := by
  by_cases h : table.any (fun r => nocaseEq r.«alias» a) = true
  · have hadd : add_entity_alias table a canonical entity_type = (false, table) := by
      simp [add_entity_alias, h]
    rw [hadd]
    refine ⟨⟨fun _ => ?_, fun _ => rfl⟩, fun _ => rfl, fun hc => absurd hc (by simp)⟩
    simpa [List.any_eq_true] using h
  · have hadd : add_entity_alias table a canonical entity_type
        = (true, table ++ [⟨a, canonical, entity_type⟩]) := by
      simp [add_entity_alias, h]
    rw [hadd]
    refine ⟨⟨fun hc => absurd hc (by simp), fun hex => ?_⟩,
      fun hc => absurd hc (by simp), fun _ => rfl⟩
    obtain ⟨r, hr, hra⟩ := hex
    exact absurd (List.any_eq_true.mpr ⟨r, hr, hra⟩) h

/-- Witness for C7 at a concrete table: inserting `sam` over an existing
`Sam` alias is the `false` outcome and leaves the table unchanged. -/
theorem add_alias_conflict_boolean_witness :
    (add_entity_alias [⟨"Sam", "Samuel Bunce", "person"⟩] "sam" "Samuel Bunce" "person").2
      = [⟨"Sam", "Samuel Bunce", "person"⟩] :=
  (add_alias_conflict_boolean [⟨"Sam", "Samuel Bunce", "person"⟩] "sam" "Samuel Bunce"
    "person").2.1 (by decide)

/-- C6: alias resolution satisfies the identity laws. If no alias row
maps a name elsewhere (every case-insensitive match for the name has it as
its own canonical), `get_canonical_name` returns the name unchanged; and
for every registered alias row in a table whose alias keys are pairwise
case-insensitively distinct (the `alias` column is a `COLLATE NOCASE`
primary key), any case-insensitive spelling of that alias resolves to the
row's canonical name. -/
theorem alias_resolution_identity :
    (∀ (table : List AliasRow) (name : String),
      (∀ r ∈ table, nocaseEq r.«alias» name = true → r.canonical = name) →
      get_canonical_name table name = name)
    ∧ (∀ (table : List AliasRow) (r : AliasRow) (x : String),
      table.Pairwise (fun r1 r2 => nocaseEq r1.«alias» r2.«alias» = false) →
      r ∈ table → nocaseEq r.«alias» x = true →
      get_canonical_name table x = r.canonical) := by
  constructor
  · intro table name h
    unfold get_canonical_name
    cases hf : table.find? (fun r => nocaseEq r.«alias» name) with
    | none => rfl
    | some r =>
      refine h r (List.mem_of_find?_eq_some hf) ?_
      have := List.find?_some hf
      simpa using this
  · intro table
    induction table with
    | nil => intro r x _ hr; exact absurd hr (List.not_mem_nil r)
    | cons hd tl ih =>
      intro r x hpw hr hx
      by_cases hhd : nocaseEq hd.«alias» x = true
      · have hfind : get_canonical_name (hd :: tl) x = hd.canonical := by
          simp only [get_canonical_name, List.find?_cons, hhd, if_true]
        rw [hfind]
        cases hr with
        | head => rfl
        | tail _ hrtl =>
          exfalso
          have hne := (List.pairwise_cons.mp hpw).1 r hrtl
          have h1 := (nocaseEq_iff hd.«alias» x).mp hhd
          have h2 := (nocaseEq_iff r.«alias» x).mp hx
          have : nocaseEq hd.«alias» r.«alias» = true :=
            (nocaseEq_iff hd.«alias» r.«alias»).mpr (h1.trans h2.symm)
          rw [hne] at this
          exact Bool.false_ne_true this
      · have hhd' : nocaseEq hd.«alias» x = false := by
          simpa using hhd
        have hfind : get_canonical_name (hd :: tl) x = get_canonical_name tl x := by
          simp only [get_canonical_name, List.find?_cons, hhd', if_false]
        rw [hfind]
        cases hr with
        | head => exact absurd hx hhd
        | tail _ hrtl => exact ih r x (List.pairwise_cons.mp hpw).2 hrtl hx

/-- Witness for C6 at a concrete alias table: a name with no alias row
resolves to itself, and a different casing of a registered alias resolves
to its canonical name. -/
theorem alias_resolution_identity_witness :
    get_canonical_name [⟨"sam", "Samuel Bunce", "person"⟩] "Quinn" = "Quinn"
    ∧ get_canonical_name [⟨"sam", "Samuel Bunce", "person"⟩] "SAM" = "Samuel Bunce" := by
  constructor
  · exact alias_resolution_identity.1 [⟨"sam", "Samuel Bunce", "person"⟩] "Quinn" (by decide)
  · exact alias_resolution_identity.2 [⟨"sam", "Samuel Bunce", "person"⟩]
      ⟨"sam", "Samuel Bunce", "person"⟩ "SAM" (by simp) (by simp) (by decide)

/-- C5: the two accepted entity-reference encodings are equivalent. For
every name and recognized entity type, the type-keyed mapping form and the
list-of-objects form parse to the same list of entity references, and
indexing two otherwise identical documents carrying the two forms stores
the same rows. -/
theorem entity_encoding_equivalence (name tystr : String) (ty : EntityType)
    (h : entityTypeOf tystr = some ty) :
    parseEntities (.map [(tystr, .list [.str name])])
      = parseEntities (.list [.map [("name", .str name), ("type", .str tystr)]])
    ∧ ∀ (st : Store) (d : ArchiveDoc),
      add_document st { d with entities := parseEntities (.map [(tystr, .list [.str name])]) }
        = add_document st
            { d with entities :=
                parseEntities (.list [.map [("name", .str name), ("type", .str tystr)]]) } := by
  have h1 : parseEntities (.map [(tystr, .list [.str name])]) = [⟨name, ty⟩] := by
    simp [parseEntities, h]
  have h2 : parseEntities (.list [.map [("name", .str name), ("type", .str tystr)]])
      = [⟨name, ty⟩] := by
    simp [parseEntities, yLookup, h]
  refine ⟨h1.trans h2.symm, fun st d => ?_⟩
  rw [h1, h2]

/-- Witness for C5 at the spec's scenario input `Sam` / `person`. -/
theorem entity_encoding_equivalence_witness :
    parseEntities (.map [("person", .list [.str "Sam"])])
      = parseEntities (.list [.map [("name", .str "Sam"), ("type", .str "person")]]) :=
  (entity_encoding_equivalence "Sam" "person" .person rfl).1

theorem upsertEntity_find_self (rows : List EntityRow) (name ty : String) (ts : Nat) :
    ∃ row, (upsertEntity rows name ty ts).find? (fun r => r.name == name) = some row
      ∧ row.last_mentioned = ts := by
  unfold upsertEntity
  by_cases h : rows.any (fun r => r.name == name) = true
  · rw [if_pos h]
    have hsome : (rows.find? (fun r => r.name == name)).isSome := by
      rw [List.find?_isSome]
      simpa [List.any_eq_true] using h
    obtain ⟨r0, hr0⟩ := Option.isSome_iff_exists.mp hsome
    have hp : r0.name = name := by
      have := List.find?_some hr0
      simpa using this
    refine ⟨{r0 with last_mentioned := ts}, ?_, rfl⟩
    rw [List.find?_map]
    have hcomp : ((fun r => r.name == name) ∘
        (fun r => if r.name == name then {r with last_mentioned := ts} else r))
        = fun (r : EntityRow) => r.name == name := by
      funext r
      by_cases hr : r.name = name <;> simp [hr]
    rw [hcomp, hr0]
    simp [hp]
  · rw [if_neg h]
    refine ⟨⟨name, ty, ts, ts⟩, ?_, rfl⟩
    rw [List.find?_append]
    have hnone : rows.find? (fun r => r.name == name) = none := by
      rw [List.find?_eq_none]
      intro x hx hpx
      exact h (List.any_eq_true.mpr ⟨x, hx, hpx⟩)
    rw [hnone]
    simp [List.find?_cons]

theorem upsertEntity_find_preserve (rows : List EntityRow) (n ty name : String) (ts : Nat)
    (row : EntityRow) (h : rows.find? (fun r => r.name == name) = some row)
    (hlm : row.last_mentioned = ts) :
    ∃ row', (upsertEntity rows n ty ts).find? (fun r => r.name == name) = some row'
      ∧ row'.last_mentioned = ts := by
  unfold upsertEntity
  by_cases ha : rows.any (fun r => r.name == n) = true
  · rw [if_pos ha, List.find?_map]
    have hcomp : ((fun r => r.name == name) ∘
        (fun r => if r.name == n then {r with last_mentioned := ts} else r))
        = fun (r : EntityRow) => r.name == name := by
      funext r
      by_cases hr : r.name = n <;> simp [hr]
    rw [hcomp, h]
    refine ⟨_, rfl, ?_⟩
    by_cases hrow : row.name = n <;> simp [hrow, hlm]
  · rw [if_neg ha, List.find?_append, h]
    exact ⟨row, rfl, hlm⟩

theorem add_document_loop_preserve (l : List EntityRef) (st : Store) (d : ArchiveDoc)
    (name : String) (row : EntityRow)
    (h : st.entities.find? (fun r => r.name == name) = some row)
    (hlm : row.last_mentioned = d.ts) :
    ∃ row', (add_document st { d with entities := l }).entities.find?
        (fun r => r.name == name) = some row' ∧ row'.last_mentioned = d.ts := by
  induction l generalizing st row with
  | nil => exact ⟨row, h, hlm⟩
  | cons hd tl ih =>
    obtain ⟨row', h', hlm'⟩ :=
      upsertEntity_find_preserve st.entities hd.name hd.type.value name d.ts row h hlm
    exact ih { st with entities := upsertEntity st.entities hd.name hd.type.value d.ts,
                       refs := insertRefIgnore st.refs hd.name d.id d.ts } row' h' hlm'

theorem add_document_loop (l : List EntityRef) (st : Store) (d : ArchiveDoc)
    (er : EntityRef) (h : er ∈ l) :
    ∃ row, (add_document st { d with entities := l }).entities.find?
        (fun r => r.name == er.name) = some row ∧ row.last_mentioned = d.ts := by
  induction l generalizing st with
  | nil => cases h
  | cons hd tl ih =>
    cases h with
    | head =>
      obtain ⟨row, hrow, hlm⟩ :=
        upsertEntity_find_self st.entities er.name er.type.value d.ts
      exact add_document_loop_preserve tl
        { st with entities := upsertEntity st.entities er.name er.type.value d.ts,
                  refs := insertRefIgnore st.refs er.name d.id d.ts } d er.name row hrow hlm
    | tail _ htl =>
      exact ih { st with entities := upsertEntity st.entities hd.name hd.type.value d.ts,
                         refs := insertRefIgnore st.refs hd.name d.id d.ts } htl

/-- C4 counterexample: the claim fails on the code. With entity `Sam`
stored at `last_mentioned = 5`, indexing a document timestamped 3 that
references `Sam` leaves `last_mentioned = 3`, not the claimed
`max 5 3 = 5`: the upsert overwrites the field and a later-indexed,
earlier-timestamped document decreases it. -/
theorem last_mentioned_not_monotonic_max :
    (add_document ⟨[⟨"Sam", "person", 5, 5⟩], [], [], [], []⟩
        { id := "d2", ts := 3, type := .reference, title := "T", summary := "",
          content := "", entities := [⟨"Sam", .person⟩], related_docs := [],
          tags := [], source_session := none, source_files := [] }).entities
      = [⟨"Sam", "person", 5, 3⟩]
    ∧ (3 : Nat) ≠ max 5 3 := by
  constructor
  · decide
  · decide

/-- C4 amended: after indexing a document, every entity it references has
`last_mentioned` equal to that document's timestamp — the upsert plainly
overwrites the field with the indexing document's timestamp (which can
move it backwards), rather than taking the monotonic max. -/
theorem last_mentioned_overwrite (st : Store) (doc : ArchiveDoc) (er : EntityRef)
    (h : er ∈ doc.entities) :
    ∃ row, get_entity (add_document st doc) er.name = some row
      ∧ row.last_mentioned = doc.ts := by
  have := add_document_loop doc.entities st doc er h
  simpa [get_entity] using this

/-- Witness for the amended C4 at a concrete store and document. -/
theorem last_mentioned_overwrite_witness :
    ∃ row, get_entity (add_document ⟨[⟨"Sam", "person", 5, 5⟩], [], [], [], []⟩
        { id := "d2", ts := 3, type := .reference, title := "T", summary := "",
          content := "", entities := [⟨"Sam", .person⟩], related_docs := [],
          tags := [], source_session := none, source_files := [] }) "Sam" = some row
      ∧ row.last_mentioned = 3 :=
  last_mentioned_overwrite ⟨[⟨"Sam", "person", 5, 5⟩], [], [], [], []⟩
    { id := "d2", ts := 3, type := .reference, title := "T", summary := "",
      content := "", entities := [⟨"Sam", .person⟩], related_docs := [],
      tags := [], source_session := none, source_files := [] }
    ⟨"Sam", .person⟩ (by decide)

/-- C10: a document whose metadata `type` field is present but not a
recognized document type is rejected whole (`parse_document` returns
`none`, no default is substituted); when the `type` field is absent, any
accepted document defaults to type `reference`, and a document whose
frontmatter is just a timestamp is indeed accepted with that default. -/
theorem doc_type_validation :
    (∀ (fm : List (String × Yaml)) (body stem : String) (v : Yaml),
      yLookup fm "type" = some v → yamlToDocType v = none →
      parse_document (.framed fm body) stem = none)
    ∧ (∀ (fm : List (String × Yaml)) (body stem : String) (d : ArchiveDoc),
      yLookup fm "type" = none →
      parse_document (.framed fm body) stem = some d → d.type = .reference)
    ∧ (∀ (t : Nat) (body stem : String),
      parse_document (.framed [("ts", .time t)] body) stem
        = some { id := stem, ts := t, type := .reference, title := findHeading body,
                 summary := "", content := trimStr body, entities := [],
                 related_docs := [], tags := [], source_session := none,
                 source_files := [] }) := by
  refine ⟨?_, ?_, ?_⟩
  · intro fm body stem v hv hnone
    have hg : yGetD fm "type" (.str "reference") = v := by simp [yGetD, hv]
    simp only [parse_document]
    rw [hg, hnone]
    repeat' split
    all_goals try rfl
    all_goals simp_all
  · intro fm body stem d hty hp
    have hg : yGetD fm "type" (.str "reference") = .str "reference" := by
      simp [yGetD, hty]
    simp only [parse_document] at hp
    rw [hg] at hp
    repeat' split at hp
    all_goals try exact Option.noConfusion hp
    all_goals
      rename_i h1 h2 h3 h4 h5 h6 h7 h8 h9
      simp only [yamlToDocType, docTypeOf] at h3
      injection hp with hp'
      injection h3 with h3'
      subst hp'
      subst h3'
      rfl
  · intro t body stem
    rfl

/-- Witness for C10: a document typed `memo` (unrecognized) is rejected,
and a document with only a timestamp is accepted with type `reference`. -/
theorem doc_type_validation_witness :
    parse_document (.framed [("ts", .time 1), ("type", .str "memo")] "") "s" = none
    ∧ parse_document (.framed [("ts", .time 1)] "") "s"
        = some { id := "s", ts := 1, type := .reference, title := "Untitled",
                 summary := "", content := "", entities := [], related_docs := [],
                 tags := [], source_session := none, source_files := [] } := by
  constructor
  · exact doc_type_validation.1 [("ts", .time 1), ("type", .str "memo")] "" "s"
      (.str "memo") rfl rfl
  · exact doc_type_validation.2.2 1 "" "s"

theorem sessionUpdate_id (s : SessionUsage) (r : SessionRow) :
    (sessionUpdate s r).id = r.id := by
  unfold sessionUpdate
  split <;> rfl

theorem sessionUpdate_idem (s : SessionUsage) (r : SessionRow) :
    sessionUpdate s (sessionUpdate s r) = sessionUpdate s r := by
  unfold sessionUpdate
  by_cases h : r.id = s.id <;> simp [h]

theorem upsert_session_idem (rows : List SessionRow) (s : SessionUsage) :
    upsert_session (upsert_session rows s) s = upsert_session rows s := by
  by_cases ha : rows.any (fun r => r.id == s.id) = true
  · have h1 : upsert_session rows s = rows.map (sessionUpdate s) := by
      rw [upsert_session, if_pos ha]
    have ha2 : (rows.map (sessionUpdate s)).any (fun r => r.id == s.id) = true := by
      rw [List.any_map]
      have : ((fun (r : SessionRow) => r.id == s.id) ∘ sessionUpdate s)
          = fun (r : SessionRow) => r.id == s.id := by
        funext r
        simp [Function.comp, sessionUpdate_id]
      rw [this]
      exact ha
    rw [h1, upsert_session, if_pos ha2, List.map_map]
    have : (sessionUpdate s ∘ sessionUpdate s) = sessionUpdate s := by
      funext r
      exact sessionUpdate_idem s r
    rw [this]
  · have h1 : upsert_session rows s
        = rows ++ [⟨s.id, s.vault_path, s.started_at, s.ended_at, s.total_input_tokens,
            s.total_output_tokens, s.total_cache_creation, s.total_cache_read,
            s.total_messages, s.slug⟩] := by
      rw [upsert_session, if_neg ha]
    have ha2 : (rows ++ [(⟨s.id, s.vault_path, s.started_at, s.ended_at,
        s.total_input_tokens, s.total_output_tokens, s.total_cache_creation,
        s.total_cache_read, s.total_messages, s.slug⟩ : SessionRow)]).any
        (fun r => r.id == s.id) = true := by
      rw [List.any_append]
      simp
    rw [h1, upsert_session, if_pos ha2, List.map_append]
    have hrows : rows.map (sessionUpdate s) = rows := by
      have hall : ∀ r ∈ rows, sessionUpdate s r = r := by
        intro r hr
        have hid : (r.id == s.id) = false := by
          rcases Bool.eq_false_or_eq_true (r.id == s.id) with ht | hf
          · exact absurd (List.any_eq_true.mpr ⟨r, hr, ht⟩) ha
          · exact hf
        unfold sessionUpdate
        rw [if_neg (by simp [hid])]
      calc rows.map (sessionUpdate s) = rows.map id := List.map_congr_left hall
        _ = rows := List.map_id rows
    rw [hrows]
    congr 1
    simp [sessionUpdate]

theorem foldl_insert_subagent (calls : List SubagentCall) (acc : List SubagentCall) :
    calls.foldl insert_subagent_call acc = acc ++ calls := by
  induction calls generalizing acc with
  | nil => simp
  | cons c cs ih => simp [List.foldl_cons, insert_subagent_call, ih]

theorem record_subagent_calls_idem (rows : List SubagentCall) (sid : String)
    (calls : List SubagentCall) (h : ∀ c ∈ calls, c.session_id = sid) :
    record_subagent_calls (record_subagent_calls rows sid calls) sid calls
      = record_subagent_calls rows sid calls := by
  unfold record_subagent_calls
  rw [foldl_insert_subagent, foldl_insert_subagent, List.filter_append]
  have h1 : (rows.filter (fun r => !(r.session_id == sid))).filter
      (fun r => !(r.session_id == sid)) = rows.filter (fun r => !(r.session_id == sid)) := by
    rw [List.filter_filter]
    apply List.filter_congr
    intro a _
    simp
  have h2 : calls.filter (fun r => !(r.session_id == sid)) = [] := by
    rw [List.filter_eq_nil_iff]
    intro c hc
    simp [h c hc]
  rw [h1, h2, List.append_nil]

/-- C1: reprocessing the same transcript for the same session id is
idempotent at the store. Applying `upsert_session` twice with the same
session data leaves the `sessions` table equal to applying it once, and
re-recording a session's freshly computed subagent calls (whose rows all
carry that session id) via the delete-then-insert replacement leaves
exactly one copy of each row rather than appending a second copy. -/
theorem usage_idempotence (srows : List SessionRow) (s : SessionUsage)
    (crows : List SubagentCall) (sid : String) (calls : List SubagentCall)
    (h : ∀ c ∈ calls, c.session_id = sid) :
    upsert_session (upsert_session srows s) s = upsert_session srows s
    ∧ record_subagent_calls (record_subagent_calls crows sid calls) sid calls
        = record_subagent_calls crows sid calls :=
  ⟨upsert_session_idem srows s, record_subagent_calls_idem crows sid calls h⟩

/-- Witness for C1 at a concrete session and one subagent call. -/
theorem usage_idempotence_witness :
    upsert_session (upsert_session [] ⟨"s1", "/v", 1, some 2, 10, 20, 30, 40, 5, none⟩)
        ⟨"s1", "/v", 1, some 2, 10, 20, 30, 40, 5, none⟩
      = upsert_session [] ⟨"s1", "/v", 1, some 2, 10, 20, 30, 40, 5, none⟩
    ∧ record_subagent_calls (record_subagent_calls [] "s1"
          [⟨"s1", "a1", "Archivist", none, none, 1, some 2, some 100, 1, 2, 3, 4, 10, 0,
            "completed"⟩]) "s1"
        [⟨"s1", "a1", "Archivist", none, none, 1, some 2, some 100, 1, 2, 3, 4, 10, 0,
          "completed"⟩]
      = record_subagent_calls [] "s1"
          [⟨"s1", "a1", "Archivist", none, none, 1, some 2, some 100, 1, 2, 3, 4, 10, 0,
            "completed"⟩] :=
  usage_idempotence [] ⟨"s1", "/v", 1, some 2, 10, 20, 30, 40, 5, none⟩ [] "s1"
    [⟨"s1", "a1", "Archivist", none, none, 1, some 2, some 100, 1, 2, 3, 4, 10, 0,
      "completed"⟩]
    (by
      intro c hc
      rw [List.mem_singleton] at hc
      subst hc
      rfl)

theorem add_document_sessions (l : List EntityRef) (st : Store) (d : ArchiveDoc) :
    (add_document st { d with entities := l }).sessions = st.sessions := by
  induction l generalizing st with
  | nil => rfl
  | cons hd tl ih =>
    exact ih { st with entities := upsertEntity st.entities hd.name hd.type.value d.ts,
                       refs := insertRefIgnore st.refs hd.name d.id d.ts }

theorem add_document_subagent (l : List EntityRef) (st : Store) (d : ArchiveDoc) :
    (add_document st { d with entities := l }).subagent_calls = st.subagent_calls := by
  induction l generalizing st with
  | nil => rfl
  | cons hd tl ih =>
    exact ih { st with entities := upsertEntity st.entities hd.name hd.type.value d.ts,
                       refs := insertRefIgnore st.refs hd.name d.id d.ts }

theorem rebuild_fold_sessions (docs : List DocFile) (acc : Store × Nat × Nat) :
    (docs.foldl rebuildStep acc).1.sessions = acc.1.sessions := by
  induction docs generalizing acc with
  | nil => rfl
  | cons f fs ih =>
    rw [List.foldl_cons, ih]
    unfold rebuildStep
    split
    · rename_i d _
      exact add_document_sessions d.entities acc.1 d
    · rfl

theorem rebuild_fold_subagent (docs : List DocFile) (acc : Store × Nat × Nat) :
    (docs.foldl rebuildStep acc).1.subagent_calls = acc.1.subagent_calls := by
  induction docs generalizing acc with
  | nil => rfl
  | cons f fs ih =>
    rw [List.foldl_cons, ih]
    unfold rebuildStep
    split
    · rename_i d _
      exact add_document_subagent d.entities acc.1 d
    · rfl

/-- C2: the rebuild is idempotent. Rebuilding from the same document set
twice yields exactly the same final store state (entity tables recomputed
from the documents, telemetry tables untouched) and the same report
counts as rebuilding once; the standalone script's rebuild, which starts
from a freshly deleted database, likewise yields the same state twice. -/
theorem rebuild_idempotent (st : Store) (docs : List DocFile) :
    rebuild_index (rebuild_index st docs).1 docs = rebuild_index st docs
    ∧ ∀ st' : Store, script_rebuild st' docs = script_rebuild st docs := by
  constructor
  · have hs := rebuild_fold_sessions docs
      ({ st with entities := [], refs := [], aliases := [] }, 0, 0)
    have hc := rebuild_fold_subagent docs
      ({ st with entities := [], refs := [], aliases := [] }, 0, 0)
    unfold rebuild_index
    have hinit : ({ (docs.foldl rebuildStep
        ({ st with entities := [], refs := [], aliases := [] }, 0, 0)).1 with
          entities := [], refs := [], aliases := [] } : Store)
        = { st with entities := [], refs := [], aliases := [] } := by
      simp only [Store.mk.injEq]
      exact ⟨trivial, trivial, trivial, hs, hc⟩
    rw [hinit]
  · intro st'
    rfl

theorem script_entity_fold_sessions (l : List Yaml) (docId ts : Yaml)
    (acc : ScriptStore × Nat) :
    (l.foldl (scriptEntityStep docId ts) acc).1.sessions = acc.1.sessions := by
  induction l generalizing acc with
  | nil => rfl
  | cons e es ih =>
    rw [List.foldl_cons, ih]
    unfold scriptEntityStep
    split
    · split <;> rfl
    · rfl

theorem script_entity_fold_subagent (l : List Yaml) (docId ts : Yaml)
    (acc : ScriptStore × Nat) :
    (l.foldl (scriptEntityStep docId ts) acc).1.subagent_calls = acc.1.subagent_calls := by
  induction l generalizing acc with
  | nil => rfl
  | cons e es ih =>
    rw [List.foldl_cons, ih]
    unfold scriptEntityStep
    split
    · split <;> rfl
    · rfl

theorem script_fold_sessions (docs : List DocFile) (acc : ScriptStore × Nat × Nat) :
    (docs.foldl scriptDocStep acc).1.sessions = acc.1.sessions := by
  induction docs generalizing acc with
  | nil => rfl
  | cons f fs ih =>
    rw [List.foldl_cons, ih]
    unfold scriptDocStep
    split
    · rfl
    · split
      · split
        · exact script_entity_fold_sessions _ _ _ _
        · rfl
      · rfl

theorem script_fold_subagent (docs : List DocFile) (acc : ScriptStore × Nat × Nat) :
    (docs.foldl scriptDocStep acc).1.subagent_calls = acc.1.subagent_calls := by
  induction docs generalizing acc with
  | nil => rfl
  | cons f fs ih =>
    rw [List.foldl_cons, ih]
    unfold scriptDocStep
    split
    · rfl
    · split
      · split
        · exact script_entity_fold_subagent _ _ _ _
        · rfl
      · rfl

/-- C3 counterexample: the claim fails for the standalone script's rebuild
invocation. Starting from a store holding one `sessions` row, the script
deletes the whole database file before rebuilding, so afterwards the
sessions table holds no rows — the telemetry is not unchanged. -/
theorem rebuild_telemetry_counterexample :
    (script_rebuild ⟨[], [], [], [⟨"s1", "/v", 1, none, 0, 0, 0, 0, 0, none⟩], []⟩ []).1.sessions
      ≠ (⟨[], [], [], [⟨"s1", "/v", 1, none, 0, 0, 0, 0, 0, none⟩], []⟩ : Store).sessions := by
  decide

/-- C3 amended: the in-package `rebuild_index` recreates only the entity,
alias and reference tables and leaves the `sessions` and `subagent_calls`
tables unchanged; the standalone script's rebuild instead deletes the
whole database file, so after it the telemetry tables are empty whatever
they previously held. -/
theorem rebuild_preserves_telemetry (st : Store) (docs : List DocFile) :
    (rebuild_index st docs).1.sessions = st.sessions
    ∧ (rebuild_index st docs).1.subagent_calls = st.subagent_calls
    ∧ (script_rebuild st docs).1.sessions = []
    ∧ (script_rebuild st docs).1.subagent_calls = [] := by
  refine ⟨?_, ?_, ?_, ?_⟩
  · exact rebuild_fold_sessions docs ({ st with entities := [], refs := [], aliases := [] }, 0, 0)
  · exact rebuild_fold_subagent docs ({ st with entities := [], refs := [], aliases := [] }, 0, 0)
  · exact script_fold_sessions docs (⟨[], [], [], []⟩, 0, 0)
  · exact script_fold_subagent docs (⟨[], [], [], []⟩, 0, 0)

/-- C8 counterexample: on the package path the claimed distinguishable
reasons do not exist. A document with no leading metadata block and a
document with a metadata block but no timestamp both come back from
`parse_document` as the same bare `none`, and `rebuild_index` reports
both with the same generic `(parse error)` entry, so its report does not
distinguish the two failure modes. -/
theorem parse_reject_reasons_counterexample :
    parse_document .noMarker "x" = none
    ∧ parse_document (.framed [("id", .str "x")] "") "x" = none
    ∧ rebuild_index_report .noMarker "x"
        = rebuild_index_report (.framed [("id", .str "x")] "") "x" :=
  ⟨rfl, rfl, rfl⟩

/-- C8 amended: both rebuild drivers reject bad documents without
aborting the batch, but only the standalone script's report distinguishes
the `(no frontmatter)` and `(no timestamp)` reasons; the package
`parse_document` returns an undifferentiated `none`, which
`rebuild_index` reports as one generic parse error. -/
theorem parse_reject_reasons_amended :
    (script_report .noMarker = .noFrontmatter)
    ∧ (∀ (fm : List (String × Yaml)) (body : String),
      yTruthy (.map fm) = true → yTruthy (yGet fm "ts") = false →
      script_report (.framed fm body) = .noTimestamp)
    ∧ ScriptReport.noFrontmatter ≠ ScriptReport.noTimestamp
    ∧ (∀ (f : DocFile) (rest : List DocFile) (acc : ScriptStore × Nat × Nat),
      script_report f.raw ≠ .indexed →
      (f :: rest).foldl scriptDocStep acc = rest.foldl scriptDocStep acc)
    ∧ (∀ (f : DocFile) (rest : List DocFile) (acc : Store × Nat × Nat),
      parse_document f.raw f.stem = none →
      (f :: rest).foldl rebuildStep acc
        = rest.foldl rebuildStep (acc.1, acc.2.1, acc.2.2 + 1)) := by
  refine ⟨rfl, ?_, by decide, ?_, ?_⟩
  · intro fm body h1 h2
    simp [script_report, parse_frontmatter, h1, h2]
  · intro f rest acc h
    rw [List.foldl_cons]
    have hstep : scriptDocStep acc f = acc := by
      cases hpf : parse_frontmatter f.raw with
      | none => simp [scriptDocStep, hpf]
      | some fm =>
        by_cases h1 : yTruthy (.map fm) = true
        · by_cases h2 : yTruthy (yGet fm "ts") = true
          · exact absurd (by simp [script_report, hpf, h1, h2]) h
          · simp [scriptDocStep, hpf, h1, h2]
        · simp [scriptDocStep, hpf, h1]
    rw [hstep]
  · intro f rest acc h
    rw [List.foldl_cons]
    have hstep : rebuildStep acc f = (acc.1, acc.2.1, acc.2.2 + 1) := by
      simp [rebuildStep, h]
    rw [hstep]

/-- Witness for the amended C8 at concrete documents: a no-marker file
and a frontmatter-but-no-timestamp file get the two distinct script
report entries. -/
theorem parse_reject_reasons_amended_witness :
    script_report .noMarker = .noFrontmatter
    ∧ script_report (.framed [("id", .str "x")] "") = .noTimestamp :=
  ⟨parse_reject_reasons_amended.1,
   parse_reject_reasons_amended.2.1 [("id", .str "x")] "" rfl rfl⟩

theorem cpfold_isSome (l : List TranscriptEntry) (acc : Option Nat)
    (h : (∃ e ∈ l, e.timestamp.isSome = true) ∨ acc.isSome = true) :
    (l.foldl (fun acc e =>
      match e.timestamp, acc with
      | some t, none => some t
      | some t, some m => some (max m t)
      | none, a => a) acc).isSome = true := by
  induction l generalizing acc with
  | nil =>
    rcases h with ⟨e, he, _⟩ | ha
    · cases he
    · exact ha
  | cons e es ih =>
    rw [List.foldl_cons]
    rcases h with ⟨e0, he0, hs⟩ | ha
    · rcases List.mem_cons.mp he0 with rfl | hmem
      · apply ih
        right
        cases het : e0.timestamp with
        | none => rw [het] at hs; cases hs
        | some t => cases acc <;> simp [het]
      · exact ih _ (Or.inl ⟨e0, hmem, hs⟩)
    · apply ih
      right
      cases het : e.timestamp with
      | none => simpa [het] using ha
      | some t => cases acc <;> simp [het]

theorem cpfold_ge (l : List TranscriptEntry) (acc : Option Nat) (c : Nat)
    (hl : ∀ e ∈ l, ∀ t, e.timestamp = some t → c ≤ t)
    (hacc : ∀ m, acc = some m → c ≤ m) :
    ∀ m, l.foldl (fun acc e =>
      match e.timestamp, acc with
      | some t, none => some t
      | some t, some m => some (max m t)
      | none, a => a) acc = some m → c ≤ m := by
  induction l generalizing acc with
  | nil => exact hacc
  | cons e es ih =>
    intro m hm
    rw [List.foldl_cons] at hm
    refine ih _ (fun e' he' => hl e' (List.mem_cons_of_mem _ he')) ?_ m hm
    intro m' hm'
    cases het : e.timestamp with
    | none =>
      rw [het] at hm'
      exact hacc m' hm'
    | some t =>
      have hct := hl e (List.mem_cons_self e es) t het
      cases hac : acc with
      | none =>
        rw [het, hac] at hm'
        cases hm'
        exact hct
      | some m0 =>
        rw [het, hac] at hm'
        cases hm'
        exact le_trans hct (le_max_right m0 t)

/-- C9 (modelled from the spec, the Delta Extractor being outside src/):
checkpoint monotonicity. Every entry in the extracted delta has a
timestamp strictly greater than the prior checkpoint, and after a
successful (at least 2 qualifying entries, hence non-discarded)
extraction the new checkpoint exists and is at least the old one. -/
theorem checkpoint_monotonicity :
    (∀ (entries : List TranscriptEntry) (c : Nat) (e : TranscriptEntry) (t : Nat),
      e ∈ qualifyingEntries entries (some c) → e.timestamp = some t → c < t)
    ∧ (∀ (entries : List TranscriptEntry) (c : Nat),
      2 ≤ (qualifyingEntries entries (some c)).length →
      ∃ m, newCheckpoint entries (some c) = some m ∧ c ≤ m) := by
  constructor
  · intro entries c e t hq ht
    have hd : e ∈ deltaEntries entries (some c) := List.mem_of_mem_filter hq
    have hp := List.of_mem_filter hd
    simp only [ht] at hp
    simpa using hp
  · intro entries c hlen
    have hne : qualifyingEntries entries (some c) ≠ [] := by
      intro h0
      rw [h0] at hlen
      simp at hlen
    obtain ⟨e, he⟩ := List.exists_mem_of_ne_nil _ hne
    have hd : e ∈ deltaEntries entries (some c) := List.mem_of_mem_filter he
    have hts : e.timestamp.isSome = true := by
      have hp := List.of_mem_filter hd
      cases het : e.timestamp with
      | none => rw [het] at hp; simp at hp
      | some t => simp [het]
    have hsome := cpfold_isSome (deltaEntries entries (some c)) none (Or.inl ⟨e, hd, hts⟩)
    obtain ⟨m, hm⟩ := Option.isSome_iff_exists.mp hsome
    refine ⟨m, hm, ?_⟩
    refine cpfold_ge (deltaEntries entries (some c)) none c ?_ ?_ m hm
    · intro e' he' t' ht'
      have hp := List.of_mem_filter he'
      simp only [ht'] at hp
      exact le_of_lt (by simpa using hp)
    · intro m' hm'
      cases hm'

/-- Witness for C9 at the spec's scenario transcript with a prior
checkpoint. -/
theorem checkpoint_monotonicity_witness :
    ∃ m, newCheckpoint [⟨some 5, "user", "hi"⟩, ⟨some 6, "assistant", "hello"⟩] (some 4)
        = some m ∧ 4 ≤ m :=
  checkpoint_monotonicity.2 [⟨some 5, "user", "hi"⟩, ⟨some 6, "assistant", "hello"⟩] 4
    (by decide)
